import Mathlib

/-!
Shallow embedding of the runtime value layer of `serpens`
(src/runtime/value.h, src/runtime/value.cc): the tagged `Value` union, the
arithmetic dispatcher (`add`, `sub`, `mul`, `div`), the iterator protocol
(`StringIterator`, `RangeIterator`, `Value.iter`), the `print` builtin and
the fatal `error` reporter.

Modelling conventions:
* `i64` is modelled as `Int` (the spec states exact integer semantics;
  C++ `/` on `i64` truncates toward zero, modelled by `Int.tdiv`).
* `f64` is modelled as `Rat`: the kind/coercion structure and the implicit
  promotion `i64 -> f64` are embedded exactly; IEEE-754 rounding is
  abstracted away (every numeric example in the spec is exact).
* `Ref<Value>` sharing is immaterial to the claims: values are immutable
  after construction, so `Ref<Value>` is modelled as a plain `Value`.
* The `noreturn` function `error(loc, fmt, ...)` is modelled by returning
  `Except.error` carrying the location and the formatted message; its
  observable behaviour (the stderr line and the `exit(1)` status) is
  modelled by `FatalFault.report`.
* Iterator methods are state-passing: each returns its result together
  with the post-state, mirroring the C++ object after the call.
-/

namespace Serpens

/-- The `ValueKind` enum of value.h. -/
inductive ValueKind where
  | Nothing
  | Integer
  | String
  | Float
  | BuiltInFunction
  | Iterator
  | Range
  deriving DecidableEq, Repr

/-- The two concrete `Iterator` variants of value.cc.  `StringIterator`
owns a copy of the string (`str`) and a cursor (`index`); `RangeIterator`
owns `start`, `end` (named `stop` here, `end` is reserved) and `current`. -/
inductive Iterator where
  | strIter (str : String) (index : Nat)
  | rangeIter (start stop current : Int)
  deriving DecidableEq, Repr

/-- The `Value` union of value.h: one active payload per kind.  The
`BuiltInFunction` payload couples the display name with the function
pointer; the pointer itself is modelled as an opaque stable token
(`func : Nat`), since only its identity is ever used by this layer. -/
inductive Value where
  | nothing
  | integer (as_int : Int)
  | str (as_string : String)
  | float (as_float : Rat)
  | builtin (name : String) (func : Nat)
  | iterator (as_iter : Iterator)
  | range (start stop : Int)
  deriving DecidableEq, Repr

/-- The kind tag of a `Value` (the `kind` field of the C++ struct). -/
def Value.kind : Value → ValueKind
  | .nothing => .Nothing
  | .integer _ => .Integer
  | .str _ => .String
  | .float _ => .Float
  | .builtin _ _ => .BuiltInFunction
  | .iterator _ => .Iterator
  | .range _ _ => .Range

/-- The process-wide absence singleton `Nothing` installed by the global
constructor in value.cc. -/
def NothingValue : Value := Value.nothing

/-- A fault raised through `error(loc, fmt, ...)`: the location tag and the
formatted message. -/
structure EvalError where
  loc : String
  msg : String
  deriving DecidableEq, Repr

/-- Observable effect of a fatal fault: the text written to stderr and the
process exit status. -/
structure FatalFault where
  stderrText : String
  exitCode : Nat
  deriving DecidableEq, Repr

/-- `error` in value.cc prints `"<loc>: Error: <msg>\n"` to stderr and
calls `exit(1)`. -/
def EvalError.report (e : EvalError) : FatalFault :=
  { stderrText := e.loc ++ ": Error: " ++ e.msg ++ "\n", exitCode := 1 }

/-- The spec's TypeOperandError is the fault whose message is the
arithmetic dispatcher's operand diagnostic. -/
def EvalError.isTypeOperandError (e : EvalError) : Bool :=
  e.msg = "invalid operands to binary +"

/-- The spec's NotIterableError is the fault raised by `Value::iter`. -/
def EvalError.isNotIterableError (e : EvalError) : Bool :=
  e.msg = "value is not iterable"

/-- `Value::from_int`. -/
def Value.from_int (value : Int) : Value := Value.integer value

/-- `Value::from_string`. -/
def Value.from_string (value : String) : Value := Value.str value

/-- `Value::from_float`. -/
def Value.from_float (value : Rat) : Value := Value.float value

/-- `Value::from_iterator`. -/
def Value.from_iterator (it : Iterator) : Value := Value.iterator it

/-- `Value::from_range`. -/
def Value.from_range (start stop : Int) : Value := Value.range start stop

/-- `Value::from_builtin`. -/
def Value.from_builtin (name : String) (func : Nat) : Value :=
  Value.builtin name func

/-- `StringIterator::has_next`: `return index < str.size();` — reads the
fields, writes nothing; returned with the (unchanged) post-state. -/
def Iterator.has_next : Iterator → Bool × Iterator
  | .strIter s i => (decide (i < s.length), .strIter s i)
  | .rangeIter a b c => (decide (c < b), .rangeIter a b c)

/-- `StringIterator::next` returns `Value::from_string(str.substr(index++, 1))`;
`RangeIterator::next` returns `Value::from_int(current++)`.  Each advances
its cursor by one; the post-state is returned alongside the value. -/
def Iterator.next : Iterator → Value × Iterator
  | .strIter s i =>
      (Value.from_string (String.mk ((s.data.drop i).take 1)), .strIter s (i + 1))
  | .rangeIter a b c => (Value.from_int c, .rangeIter a b (c + 1))

/-- Remaining steps of an iterator, used as the termination measure for
draining it. -/
def Iterator.remaining : Iterator → Nat
  | .strIter s i => s.length - i
  | .rangeIter _ b c => (b - c).toNat

/-- Drains an iterator by the protocol of §4.3: while `has_next` reports
true, call `next`; returns the produced values in order together with the
exhausted final state. -/
def Iterator.run (it : Iterator) : List Value × Iterator :=
  if h : (it.has_next).1 = true then
    let p := (it.has_next).2.next
    let r := p.2.run
    (p.1 :: r.1, r.2)
  else ([], (it.has_next).2)
termination_by it.remaining
decreasing_by
  cases it with
  | strIter s i =>
      simp [Iterator.has_next] at h
      simp [Iterator.has_next, Iterator.next, Iterator.remaining]
      omega
  | rangeIter a b c =>
      simp [Iterator.has_next] at h
      simp [Iterator.has_next, Iterator.next, Iterator.remaining]
      omega

/-- `Value::iter`: defined on String and Range, a NotIterableError fault on
every other kind. -/
def Value.iter (self : Value) (loc : String) : Except EvalError Value :=
  match self with
  | .str s => .ok (Value.from_iterator (.strIter s 0))
  | .range a b => .ok (Value.from_iterator (.rangeIter a b a))
  | _ => .error { loc := loc, msg := "value is not iterable" }

/-- `Value::add`: the kind-dispatch table of value.cc lines 109-124. -/
def Value.add (self other : Value) (loc : String) : Except EvalError Value :=
  match self, other with
  | .integer a, .integer b => .ok (Value.from_int (a + b))
  | .integer a, .float b => .ok (Value.from_float ((a : Rat) + b))
  | .float a, .integer b => .ok (Value.from_float (a + (b : Rat)))
  | .float a, .float b => .ok (Value.from_float (a + b))
  | .str a, .str b => .ok (Value.from_string (a ++ b))
  | _, _ => .error { loc := loc, msg := "invalid operands to binary +" }

/-- `Value::sub`: numeric kinds only; note the fault message is the one
copy-pasted from `add` ("binary +"), exactly as in value.cc line 136. -/
def Value.sub (self other : Value) (loc : String) : Except EvalError Value :=
  match self, other with
  | .integer a, .integer b => .ok (Value.from_int (a - b))
  | .integer a, .float b => .ok (Value.from_float ((a : Rat) - b))
  | .float a, .integer b => .ok (Value.from_float (a - (b : Rat)))
  | .float a, .float b => .ok (Value.from_float (a - b))
  | _, _ => .error { loc := loc, msg := "invalid operands to binary +" }

/-- The string-repetition loop of `Value::mul`: `result` starts empty and
the source string is appended once per iteration. -/
def strRepeatAux (s : String) : Nat → String
  | 0 => ""
  | n + 1 => strRepeatAux s n ++ s

/-- `Value::mul`: numeric table plus String * Integer repetition; the loop
`for (int i = 0; i < n; i++)` runs `n.toNat` times (zero times when
`n ≤ 0`).  The fault message is again the copy-pasted "binary +". -/
def Value.mul (self other : Value) (loc : String) : Except EvalError Value :=
  match self, other with
  | .integer a, .integer b => .ok (Value.from_int (a * b))
  | .integer a, .float b => .ok (Value.from_float ((a : Rat) * b))
  | .float a, .integer b => .ok (Value.from_float (a * (b : Rat)))
  | .float a, .float b => .ok (Value.from_float (a * b))
  | .str s, .integer n => .ok (Value.from_string (strRepeatAux s n.toNat))
  | _, _ => .error { loc := loc, msg := "invalid operands to binary +" }

/-- `Value::div`: numeric kinds only; C++ `i64` division truncates toward
zero, modelled by `Int.tdiv`.  The fault message is again the copy-pasted
"binary +". -/
def Value.div (self other : Value) (loc : String) : Except EvalError Value :=
  match self, other with
  | .integer a, .integer b => .ok (Value.from_int (Int.tdiv a b))
  | .integer a, .float b => .ok (Value.from_float ((a : Rat) / b))
  | .float a, .integer b => .ok (Value.from_float (a / (b : Rat)))
  | .float a, .float b => .ok (Value.from_float (a / b))
  | _, _ => .error { loc := loc, msg := "invalid operands to binary +" }

/-- Rendering of one `Value` by `print`'s switch (value.cc lines 174-206).
The Float arm (`std::cout << double`) is parametrised by `floatRepr`, the
stream's default floating-point formatting. -/
def renderValue (floatRepr : Rat → String) : Value → String
  | .nothing => "nothing"
  | .integer n => toString n
  | .float x => floatRepr x
  | .str s => s
  | .range a b => toString a ++ ".." ++ toString b
  | .iterator _ => "<iterator>"
  | .builtin name _ => "<builtin function: " ++ name ++ ">"

/-- The `print` builtin: renders each argument followed by one space, then
one newline (`std::endl`) for the whole call, and returns the absence
singleton.  The result is the pair (text written to stdout, returned
Value).  The C++ `default:` fault arm is unreachable: the switch covers
every member of `ValueKind`. -/
def print (floatRepr : Rat → String) (args : List Value) : String × Value :=
  match args with
  | [] => ("\n", NothingValue)
  | a :: rest =>
      let r := print floatRepr rest
      (renderValue floatRepr a ++ " " ++ r.1, r.2)

/-! Helper lemmas shared by the claim theorems. -/

lemma foldl_append_shift (l : List String) :
    ∀ (b : String), List.foldl (· ++ ·) b l = b ++ List.foldl (· ++ ·) "" l := by
  induction l with
  | nil => intro b; simp
  | cons a t ih =>
      intro b
      simp only [List.foldl_cons]
      rw [ih (b ++ a), ih ("" ++ a)]
      simp [String.append_assoc]

lemma join_cons (a : String) (l : List String) :
    String.join (a :: l) = a ++ String.join l := by
  simp only [String.join, List.foldl_cons]
  rw [foldl_append_shift]
  simp

/-- Draining a `StringIterator` from cursor `i` yields the one-character
substrings of the tail, leaving the cursor at the end of the string. -/
lemma run_strIter (s : String) (k : Nat) : ∀ i, s.length - i = k →
    Iterator.run (.strIter s i) =
      ((s.data.drop i).map (fun c => Value.str (String.mk [c])),
        .strIter s (max i s.length)) := by
  induction k with
  | zero =>
      intro i hi
      have hle : s.length ≤ i := by omega
      have h1 : s.data.drop i = [] := List.drop_eq_nil_of_le hle
      have h2 : max i s.length = i := Nat.max_eq_left hle
      rw [Iterator.run]
      simp [Iterator.has_next, Nat.not_lt.mpr hle, h1, h2]
  | succ k ih =>
      intro i hi
      have hlt : i < s.length := by omega
      have hd : s.data.drop i = s.data[i] :: s.data.drop (i + 1) :=
        List.drop_eq_getElem_cons hlt
      rw [Iterator.run]
      rw [dif_pos (by simp [Iterator.has_next, hlt])]
      simp only [Iterator.has_next, Iterator.next, Value.from_string]
      rw [ih (i + 1) (by omega)]
      have hmax : max (i + 1) s.length = max i s.length := by omega
      rw [hd, hmax]
      rfl

/-- Draining a `RangeIterator` from `current = c` yields the integers of
`[c, b)` in increasing order, leaving `current` at the upper bound. -/
lemma run_rangeIter (a b : Int) (k : Nat) : ∀ c, (b - c).toNat = k →
    Iterator.run (.rangeIter a b c) =
      ((List.range (b - c).toNat).map (fun j : Nat => Value.integer (c + (j : Int))),
        .rangeIter a b (max c b)) := by
  induction k with
  | zero =>
      intro c hc
      have hle : b ≤ c := by omega
      have h2 : max c b = c := max_eq_left hle
      rw [Iterator.run]
      simp [Iterator.has_next, not_lt.mpr hle, h2, hc]
  | succ k ih =>
      intro c hc
      have hlt : c < b := by omega
      rw [Iterator.run]
      rw [dif_pos (by simp [Iterator.has_next, hlt])]
      simp only [Iterator.has_next, Iterator.next, Value.from_int]
      rw [ih (c + 1) (by omega)]
      have hk1 : (b - c).toNat = k + 1 := hc
      have hk2 : (b - (c + 1)).toNat = k := by omega
      rw [hk1, hk2, List.range_succ_eq_map]
      have hmax : max (c + 1) b = max c b := by omega
      rw [hmax]
      simp only [List.map_cons, List.map_map]
      congr 1
      congr 1
      · simp
      · refine List.map_congr_left ?_
        intro j hj
        simp [Function.comp]
        ring

lemma join_append (l1 l2 : List String) :
    String.join (l1 ++ l2) = String.join l1 ++ String.join l2 := by
  induction l1 with
  | nil => simp [String.join]
  | cons a t ih => rw [List.cons_append, join_cons, ih, join_cons, String.append_assoc]

lemma strRepeatAux_join (s : String) : ∀ n, strRepeatAux s n = String.join (List.replicate n s) := by
  intro n
  induction n with
  | zero => simp [strRepeatAux, String.join]
  | succ n ih =>
      rw [strRepeatAux, ih, List.replicate_succ', join_append]
      simp [join_cons, String.join]

lemma tdiv_nonneg_of_nonpos (a b : Int) (ha : a ≤ 0) (hb : b ≤ 0) : 0 ≤ a.tdiv b := by
  have h : a.tdiv b = (-a).tdiv (-b) := by rw [Int.neg_tdiv, Int.tdiv_neg, neg_neg]
  rw [h]
  exact Int.tdiv_nonneg (by omega) (by omega)

lemma tdiv_nonpos_right (a b : Int) (ha : 0 ≤ a) (hb : b ≤ 0) : a.tdiv b ≤ 0 := by
  have h1 : 0 ≤ a.tdiv (-b) := Int.tdiv_nonneg ha (by omega)
  have h2 : a.tdiv (-b) = -(a.tdiv b) := Int.tdiv_neg a b
  omega

lemma tdiv_nonpos_left (a b : Int) (ha : a ≤ 0) (hb : 0 ≤ b) : a.tdiv b ≤ 0 := by
  have h1 : 0 ≤ (-a).tdiv b := Int.tdiv_nonneg (by omega) hb
  have h2 : (-a).tdiv b = -(a.tdiv b) := Int.neg_tdiv a b
  omega

/-! Claim theorems. -/

/-- Claim C1: for every pair of numeric Values, each of add, sub, mul, div
follows the coercion table — Integer with Integer yields Integer; a mixed
Integer/Float pair yields a Float with the integer operand promoted (the
`(_ : Rat)` cast below) before the operation; Float with Float yields
Float — including the spec's three example evaluations. -/
theorem C1_numeric_coercion_table (a b : Int) (x y : Rat) (loc : String) :
    (Value.add (Value.integer a) (Value.integer b) loc = .ok (Value.integer (a + b)) ∧
     Value.sub (Value.integer a) (Value.integer b) loc = .ok (Value.integer (a - b)) ∧
     Value.mul (Value.integer a) (Value.integer b) loc = .ok (Value.integer (a * b)) ∧
     Value.div (Value.integer a) (Value.integer b) loc = .ok (Value.integer (a.tdiv b))) ∧
    (Value.add (Value.integer a) (Value.float y) loc = .ok (Value.float ((a : Rat) + y)) ∧
     Value.sub (Value.integer a) (Value.float y) loc = .ok (Value.float ((a : Rat) - y)) ∧
     Value.mul (Value.integer a) (Value.float y) loc = .ok (Value.float ((a : Rat) * y)) ∧
     Value.div (Value.integer a) (Value.float y) loc = .ok (Value.float ((a : Rat) / y))) ∧
    (Value.add (Value.float x) (Value.integer b) loc = .ok (Value.float (x + (b : Rat))) ∧
     Value.sub (Value.float x) (Value.integer b) loc = .ok (Value.float (x - (b : Rat))) ∧
     Value.mul (Value.float x) (Value.integer b) loc = .ok (Value.float (x * (b : Rat))) ∧
     Value.div (Value.float x) (Value.integer b) loc = .ok (Value.float (x / (b : Rat)))) ∧
    (Value.add (Value.float x) (Value.float y) loc = .ok (Value.float (x + y)) ∧
     Value.sub (Value.float x) (Value.float y) loc = .ok (Value.float (x - y)) ∧
     Value.mul (Value.float x) (Value.float y) loc = .ok (Value.float (x * y)) ∧
     Value.div (Value.float x) (Value.float y) loc = .ok (Value.float (x / y))) ∧
    (Value.add (Value.integer 2) (Value.integer 3) loc = .ok (Value.integer 5) ∧
     Value.add (Value.integer 2) (Value.float 3) loc = .ok (Value.float 5) ∧
     Value.add (Value.float (3 / 2)) (Value.integer 2) loc = .ok (Value.float (7 / 2))) := by
  refine ⟨⟨rfl, rfl, rfl, rfl⟩, ⟨rfl, rfl, rfl, rfl⟩, ⟨rfl, rfl, rfl, rfl⟩,
    ⟨rfl, rfl, rfl, rfl⟩, ?_, ?_, ?_⟩
  · rfl
  · simp only [Value.add, Value.from_float, Except.ok.injEq, Value.float.injEq]
    norm_num
  · simp only [Value.add, Value.from_float, Except.ok.injEq, Value.float.injEq]
    norm_num

/-- Claim C2: every operand-kind combination outside the dispatch table
(add: both-numeric or both-String; sub and div: both-numeric; mul:
both-numeric or String with Integer) faults with a TypeOperandError and
never returns a Value. -/
theorem C2_fault_outside_table (u v : Value) (loc : String) :
    (({ loc := loc, msg := "invalid operands to binary +" } : EvalError).isTypeOperandError
      = true) ∧
    (¬ ((u.kind = .Integer ∨ u.kind = .Float) ∧ (v.kind = .Integer ∨ v.kind = .Float)) →
     ¬ (u.kind = .String ∧ v.kind = .String) →
     Value.add u v loc = .error { loc := loc, msg := "invalid operands to binary +" }) ∧
    (¬ ((u.kind = .Integer ∨ u.kind = .Float) ∧ (v.kind = .Integer ∨ v.kind = .Float)) →
     Value.sub u v loc = .error { loc := loc, msg := "invalid operands to binary +" }) ∧
    (¬ ((u.kind = .Integer ∨ u.kind = .Float) ∧ (v.kind = .Integer ∨ v.kind = .Float)) →
     ¬ (u.kind = .String ∧ v.kind = .Integer) →
     Value.mul u v loc = .error { loc := loc, msg := "invalid operands to binary +" }) ∧
    (¬ ((u.kind = .Integer ∨ u.kind = .Float) ∧ (v.kind = .Integer ∨ v.kind = .Float)) →
     Value.div u v loc = .error { loc := loc, msg := "invalid operands to binary +" }) := by
  refine ⟨rfl, ?_, ?_, ?_, ?_⟩
  · intro h1 h2
    cases u <;> cases v <;> simp_all [Value.kind, Value.add]
  · intro h1
    cases u <;> cases v <;> simp_all [Value.kind, Value.sub]
  · intro h1 h2
    cases u <;> cases v <;> simp_all [Value.kind, Value.mul]
  · intro h1
    cases u <;> cases v <;> simp_all [Value.kind, Value.div]

/-- Claim C2 witness: concrete out-of-table pairs fault for each
operation. -/
theorem C2_fault_outside_table_witness :
    Value.add Value.nothing (Value.integer 0) "L"
      = .error { loc := "L", msg := "invalid operands to binary +" } ∧
    Value.sub (Value.str "x") (Value.integer 0) "L"
      = .error { loc := "L", msg := "invalid operands to binary +" } ∧
    Value.mul (Value.integer 0) (Value.str "x") "L"
      = .error { loc := "L", msg := "invalid operands to binary +" } ∧
    Value.div Value.nothing Value.nothing "L"
      = .error { loc := "L", msg := "invalid operands to binary +" } := by
  refine ⟨?_, ?_, ?_, ?_⟩
  · exact (C2_fault_outside_table Value.nothing (Value.integer 0) "L").2.1
      (by decide) (by decide)
  · exact (C2_fault_outside_table (Value.str "x") (Value.integer 0) "L").2.2.1 (by decide)
  · exact (C2_fault_outside_table (Value.integer 0) (Value.str "x") "L").2.2.2.1
      (by decide) (by decide)
  · exact (C2_fault_outside_table Value.nothing Value.nothing "L").2.2.2.2 (by decide)

/-- Claim C3: the code at the failing input.  `sub`, `mul` and `div` raise
their operand fault with the message copy-pasted from `add`
("invalid operands to binary +"), so the diagnostic does not identify
subtract/multiply/divide; the "loc: Error: message" stderr format and the
nonzero exit status do hold. -/
theorem C3_diagnostic_copy_paste :
    Value.sub (Value.integer 1) (Value.str "x") "main.sp:3:1"
      = .error { loc := "main.sp:3:1", msg := "invalid operands to binary +" } ∧
    Value.mul (Value.integer 1) (Value.str "x") "main.sp:3:1"
      = .error { loc := "main.sp:3:1", msg := "invalid operands to binary +" } ∧
    Value.div (Value.integer 1) (Value.str "x") "main.sp:3:1"
      = .error { loc := "main.sp:3:1", msg := "invalid operands to binary +" } ∧
    EvalError.report { loc := "main.sp:3:1", msg := "invalid operands to binary +" }
      = { stderrText := "main.sp:3:1: Error: invalid operands to binary +\n", exitCode := 1 } ∧
    (1 : Nat) ≠ 0 := by
  refine ⟨rfl, rfl, rfl, ?_, by decide⟩
  simp [EvalError.report]

/-- Claim C4: Integer with Integer arithmetic is exact, and division
truncates toward zero: the quotient's magnitude is ⌊|a| / |b|⌋ and its
sign follows the operands' signs, with the spec's two examples. -/
theorem C4_integer_arith_exact (a b : Int) (loc : String) :
    Value.add (Value.integer a) (Value.integer b) loc = .ok (Value.integer (a + b)) ∧
    Value.sub (Value.integer a) (Value.integer b) loc = .ok (Value.integer (a - b)) ∧
    Value.mul (Value.integer a) (Value.integer b) loc = .ok (Value.integer (a * b)) ∧
    Value.div (Value.integer a) (Value.integer b) loc = .ok (Value.integer (a.tdiv b)) ∧
    (b ≠ 0 →
      (a.tdiv b).natAbs = a.natAbs / b.natAbs ∧
      (0 ≤ a → 0 ≤ b → 0 ≤ a.tdiv b) ∧
      (a ≤ 0 → b ≤ 0 → 0 ≤ a.tdiv b) ∧
      (0 ≤ a → b ≤ 0 → a.tdiv b ≤ 0) ∧
      (a ≤ 0 → 0 ≤ b → a.tdiv b ≤ 0)) ∧
    Value.div (Value.integer 7) (Value.integer 2) loc = .ok (Value.integer 3) ∧
    Value.div (Value.integer (-7)) (Value.integer 2) loc = .ok (Value.integer (-3)) := by
  refine ⟨rfl, rfl, rfl, rfl, ?_, rfl, rfl⟩
  intro hb
  exact ⟨Int.natAbs_tdiv a b, fun h1 h2 => Int.tdiv_nonneg h1 h2,
    fun h1 h2 => tdiv_nonneg_of_nonpos a b h1 h2,
    fun h1 h2 => tdiv_nonpos_right a b h1 h2,
    fun h1 h2 => tdiv_nonpos_left a b h1 h2⟩

/-- Claim C4 witness: the truncation facts instantiated at 7 / 2. -/
theorem C4_integer_arith_exact_witness :
    (Int.tdiv 7 2).natAbs = (7 : Int).natAbs / (2 : Int).natAbs ∧
    Value.div (Value.integer 7) (Value.integer 2) "L" = .ok (Value.integer 3) := by
  have h := C4_integer_arith_exact 7 2 "L"
  exact ⟨(h.2.2.2.2.1 (by decide)).1, h.2.2.2.2.2.1⟩

/-- Claim C5: String * Integer repetition appends the string to an
initially empty result exactly `n` times (`strRepeatAux`, the loop of
`Value::mul`), equals `n.toNat` concatenated copies, is empty for
`n ≤ 0` without faulting, with the spec's two examples. -/
theorem C5_string_repetition (s : String) (n : Int) (loc : String) :
    Value.mul (Value.str s) (Value.integer n) loc
      = .ok (Value.str (strRepeatAux s n.toNat)) ∧
    strRepeatAux s n.toNat = String.join (List.replicate n.toNat s) ∧
    (n ≤ 0 → Value.mul (Value.str s) (Value.integer n) loc = .ok (Value.str "")) ∧
    Value.mul (Value.str "ab") (Value.integer 3) loc = .ok (Value.str "ababab") ∧
    Value.mul (Value.str "ab") (Value.integer 0) loc = .ok (Value.str "") := by
  refine ⟨rfl, strRepeatAux_join s n.toNat, ?_, rfl, rfl⟩
  intro h
  have h0 : n.toNat = 0 := by omega
  simp [Value.mul, Value.from_string, h0, strRepeatAux]

/-- Claim C5 witness: repetition by a negative count yields the empty
string. -/
theorem C5_string_repetition_witness :
    Value.mul (Value.str "ab") (Value.integer (-2)) "L" = .ok (Value.str "") :=
  (C5_string_repetition "ab" (-2) "L").2.2.1 (by decide)

/-- Claim C7: `iter` on any Value whose kind is neither String nor Range
faults with a NotIterableError carrying the supplied location and never
returns a Value. -/
theorem C7_iter_not_iterable (v : Value) (loc : String) :
    v.kind ≠ .String → v.kind ≠ .Range →
    Value.iter v loc = .error { loc := loc, msg := "value is not iterable" } ∧
    ({ loc := loc, msg := "value is not iterable" } : EvalError).isNotIterableError = true := by
  intro h1 h2
  refine ⟨?_, rfl⟩
  cases v <;> simp_all [Value.kind, Value.iter]

/-- Claim C7 witness: `iter` on Integer(5) faults with NotIterableError. -/
theorem C7_iter_not_iterable_witness :
    Value.iter (Value.integer 5) "L" = .error { loc := "L", msg := "value is not iterable" } :=
  (C7_iter_not_iterable (Value.integer 5) "L" (by decide) (by decide)).1

/-- Claim C6: `iter` on a String yields an Iterator-kind Value whose drain
produces each one-character substring in left-to-right order, ending in a
state where `has_next` is false and that produces nothing more (single
use); `iter` on a Range yields the integers of [start, end) in increasing
order with the same exhaustion behaviour; including the spec's two
example sequences. -/
theorem C6_iter_sequences (s : String) (a b : Int) (loc : String) :
    Value.iter (Value.str s) loc = .ok (Value.iterator (.strIter s 0)) ∧
    Iterator.run (.strIter s 0)
      = (s.data.map (fun c => Value.str (String.mk [c])), .strIter s s.length) ∧
    (Iterator.has_next (.strIter s s.length)).1 = false ∧
    Iterator.run (.strIter s s.length) = ([], .strIter s s.length) ∧
    Value.iter (Value.range a b) loc = .ok (Value.iterator (.rangeIter a b a)) ∧
    Iterator.run (.rangeIter a b a)
      = ((List.range (b - a).toNat).map (fun j : Nat => Value.integer (a + (j : Int))),
          .rangeIter a b (max a b)) ∧
    (Iterator.has_next (.rangeIter a b (max a b))).1 = false ∧
    Iterator.run (.rangeIter a b (max a b)) = ([], .rangeIter a b (max a b)) ∧
    (Iterator.run (.strIter "ab" 0)).1 = [Value.str "a", Value.str "b"] ∧
    (Iterator.run (.rangeIter 0 3 0)).1 = [Value.integer 0, Value.integer 1, Value.integer 2] := by
  refine ⟨rfl, ?_, ?_, ?_, rfl, ?_, ?_, ?_, ?_, ?_⟩
  · have h := run_strIter s s.length 0 (by omega)
    simpa using h
  · simp [Iterator.has_next]
  · have h := run_strIter s 0 s.length (by omega)
    have hd : s.data.drop s.length = [] := List.drop_eq_nil_of_le (le_of_eq rfl)
    rw [hd] at h
    simpa using h
  · exact run_rangeIter a b ((b - a).toNat) a rfl
  · simp only [Iterator.has_next]
    simp only [decide_eq_false_iff_not, not_lt]
    exact le_max_right a b
  · have h := run_rangeIter a b 0 (max a b) (by omega)
    rw [show (b - max a b).toNat = 0 from by omega] at h
    rw [show max (max a b) b = max a b from by omega] at h
    simpa using h
  · have h := run_strIter "ab" 2 0 (by decide)
    rw [h]
    decide
  · have h := run_rangeIter 0 3 3 0 (by decide)
    rw [h]
    decide

lemma print_out (floatRepr : Rat → String) (args : List Value) :
    (print floatRepr args).1
      = String.join (args.map (fun v => renderValue floatRepr v ++ " ")) ++ "\n" ∧
    (print floatRepr args).2 = NothingValue := by
  induction args with
  | nil => simp [print, String.join]
  | cons a t ih =>
      refine ⟨?_, ?_⟩
      · simp only [print, List.map_cons, join_cons]
        rw [ih.1]
        simp [String.append_assoc]
      · simp only [print]
        exact ih.2

/-- Claim C8: `print` renders each argument by its kind (Absence as
"nothing", Integer in decimal, Float by the stream's default formatting
`floatRepr`, String raw, Range as "start..end", Iterator and
NativeFunction as their placeholders), one space-terminated token per
argument, exactly one trailing newline for the whole call, and returns
the absence singleton; including the spec's example output. -/
theorem C8_print_rendering (floatRepr : Rat → String) (args : List Value)
    (n : Int) (x : Rat) (s : String) (a b : Int) (nm : String) (f : Nat) (it : Iterator) :
    (print floatRepr args).1
      = String.join (args.map (fun v => renderValue floatRepr v ++ " ")) ++ "\n" ∧
    (print floatRepr args).2 = NothingValue ∧
    renderValue floatRepr Value.nothing = "nothing" ∧
    renderValue floatRepr (Value.integer n) = toString n ∧
    renderValue floatRepr (Value.float x) = floatRepr x ∧
    renderValue floatRepr (Value.str s) = s ∧
    renderValue floatRepr (Value.range a b) = toString a ++ ".." ++ toString b ∧
    renderValue floatRepr (Value.iterator it) = "<iterator>" ∧
    renderValue floatRepr (Value.builtin nm f) = "<builtin function: " ++ nm ++ ">" ∧
    (print floatRepr [Value.nothing, Value.integer 5]).1 = "nothing 5 \n" := by
  refine ⟨(print_out floatRepr args).1, (print_out floatRepr args).2,
    rfl, rfl, rfl, rfl, rfl, rfl, rfl, ?_⟩
  rfl

/-- Claim C10: every factory is total and returns a Value of the
corresponding kind carrying exactly the given payload; in particular
`from_range` with start ≥ end succeeds with no validation, and `iter` on
such a Range yields an already-exhausted iterator without faulting. -/
theorem C10_constructors_total (n : Int) (s : String) (x : Rat) (it : Iterator)
    (nm : String) (f : Nat) (a b : Int) (loc : String) :
    (Value.from_int n = Value.integer n ∧ (Value.from_int n).kind = .Integer) ∧
    (Value.from_string s = Value.str s ∧ (Value.from_string s).kind = .String) ∧
    (Value.from_float x = Value.float x ∧ (Value.from_float x).kind = .Float) ∧
    (Value.from_iterator it = Value.iterator it ∧ (Value.from_iterator it).kind = .Iterator) ∧
    (Value.from_range a b = Value.range a b ∧ (Value.from_range a b).kind = .Range) ∧
    (Value.from_builtin nm f = Value.builtin nm f ∧
      (Value.from_builtin nm f).kind = .BuiltInFunction) ∧
    (b ≤ a →
      Value.iter (Value.from_range a b) loc = .ok (Value.iterator (.rangeIter a b a)) ∧
      (Iterator.has_next (.rangeIter a b a)).1 = false ∧
      Iterator.run (.rangeIter a b a) = ([], .rangeIter a b a)) := by
  refine ⟨⟨rfl, rfl⟩, ⟨rfl, rfl⟩, ⟨rfl, rfl⟩, ⟨rfl, rfl⟩, ⟨rfl, rfl⟩, ⟨rfl, rfl⟩, ?_⟩
  intro hba
  refine ⟨rfl, ?_, ?_⟩
  · simp only [Iterator.has_next]
    simp only [decide_eq_false_iff_not, not_lt]
    exact hba
  · have h := run_rangeIter a b 0 a (by omega)
    rw [show (b - a).toNat = 0 from by omega] at h
    rw [show max a b = a from by omega] at h
    simpa using h

/-- Claim C10 witness: a backwards range constructs fine and iterates to
the empty sequence. -/
theorem C10_constructors_total_witness :
    Value.iter (Value.from_range 5 2) "L" = .ok (Value.iterator (.rangeIter 5 2 5)) ∧
    (Iterator.has_next (.rangeIter 5 2 5)).1 = false := by
  have h := (C10_constructors_total 0 "" 0 (.rangeIter 0 0 0) "" 0 5 2 "L").2.2.2.2.2.2
    (by decide)
  exact ⟨h.1, h.2.1⟩

/-- Claim C9: `has_next` is a pure predicate on both iterator variants:
it returns its post-state unchanged, so a consecutive call without an
intervening `next` returns the same boolean. -/
theorem C9_has_next_pure (it : Iterator) :
    (Iterator.has_next it).2 = it ∧
    (Iterator.has_next ((Iterator.has_next it).2)).1 = (Iterator.has_next it).1 := by
  cases it <;> simp [Iterator.has_next]

end Serpens
